import Mathlib

set_option maxRecDepth 100000

deriving instance DecidableEq for Except

/-!
Verification development for the PFL Academy slide-deck tooling
(`generate-slide-decks.js` and `html-to-json-converter.js`).

JavaScript values are modelled by the inductive type `JSValue` (numbers are
modelled as integers; every numeric literal the verified claims touch is an
integer, and rate strings such as "4.75" are parsed into exact decimal
numbers by the calculated-field model).  Strings are modelled as `List Char`.  JS
functions that can throw `TypeError` (member access on `null`/`undefined`,
`forEach` on a non-array, `new Set` of a non-iterable) are modelled in the
`Except Unit` monad.  Each definition mirrors one function of the source
files; file I/O and DOM parsing are outside the model, so the modelled
functions take the already-loaded/parsed values as arguments.
-/

inductive JSValue where
  | undefined
  | null
  | bool (b : Bool)
  | num (n : Int)
  | str (s : List Char)
  | arr (elems : List JSValue)
  | obj (fields : List (List Char × JSValue))

mutual
def jsBeq : JSValue → JSValue → Bool
  | .undefined, .undefined => true
  | .null, .null => true
  | .bool a, .bool b => a == b
  | .num a, .num b => a == b
  | .str a, .str b => a == b
  | .arr a, .arr b => jsBeqList a b
  | .obj a, .obj b => jsBeqFields a b
  | _, _ => false
def jsBeqList : List JSValue → List JSValue → Bool
  | [], [] => true
  | x :: xs, y :: ys => jsBeq x y && jsBeqList xs ys
  | _, _ => false
def jsBeqFields : List (List Char × JSValue) → List (List Char × JSValue) → Bool
  | [], [] => true
  | (k, v) :: xs, (k2, v2) :: ys => k == k2 && jsBeq v v2 && jsBeqFields xs ys
  | _, _ => false
end

mutual
theorem jsBeq_iff : ∀ a b, jsBeq a b = true ↔ a = b
  | .undefined, b => by cases b <;> simp [jsBeq]
  | .null, b => by cases b <;> simp [jsBeq]
  | .bool x, b => by cases b <;> simp [jsBeq]
  | .num x, b => by cases b <;> simp [jsBeq]
  | .str x, b => by cases b <;> simp [jsBeq]
  | .arr xs, b => by
      cases b with
      | arr ys => simp only [jsBeq, jsBeqList_iff xs ys, JSValue.arr.injEq]
      | undefined => simp [jsBeq]
      | null => simp [jsBeq]
      | bool y => simp [jsBeq]
      | num y => simp [jsBeq]
      | str y => simp [jsBeq]
      | obj y => simp [jsBeq]
  | .obj fs, b => by
      cases b with
      | obj gs => simp only [jsBeq, jsBeqFields_iff fs gs, JSValue.obj.injEq]
      | undefined => simp [jsBeq]
      | null => simp [jsBeq]
      | bool y => simp [jsBeq]
      | num y => simp [jsBeq]
      | str y => simp [jsBeq]
      | arr y => simp [jsBeq]
theorem jsBeqList_iff : ∀ a b, jsBeqList a b = true ↔ a = b
  | [], b => by cases b <;> simp [jsBeqList]
  | x :: xs, b => by
      cases b with
      | nil => simp [jsBeqList]
      | cons y ys =>
        simp only [jsBeqList, Bool.and_eq_true, jsBeq_iff x y, jsBeqList_iff xs ys,
          List.cons.injEq]
theorem jsBeqFields_iff : ∀ a b, jsBeqFields a b = true ↔ a = b
  | [], b => by cases b <;> simp [jsBeqFields]
  | (k, v) :: xs, b => by
      cases b with
      | nil => simp [jsBeqFields]
      | cons y ys =>
        obtain ⟨k2, v2⟩ := y
        simp only [jsBeqFields, Bool.and_eq_true, beq_iff_eq, jsBeq_iff v v2,
          jsBeqFields_iff xs ys, List.cons.injEq, Prod.mk.injEq]
end

instance : DecidableEq JSValue := fun a b => decidable_of_iff _ (jsBeq_iff a b)

/-- JS truthiness.  (`NaN` does not occur in the model: numbers are integers.) -/
def jsTruthy : JSValue → Bool
  | .undefined => false
  | .null => false
  | .bool b => b
  | .num n => n != 0
  | .str s => !s.isEmpty
  | .arr _ => true
  | .obj _ => true

def isStrB : JSValue → Bool
  | .str _ => true
  | _ => false

def isArrB : JSValue → Bool
  | .arr _ => true
  | _ => false

def strChars : JSValue → List Char
  | .str s => s
  | _ => []

def jsElems : JSValue → List JSValue
  | .arr xs => xs
  | _ => []

/-- First-match association lookup on an object's field list, `undefined` when
the key is missing (JS objects cannot have duplicate keys, so first-match is
exact). -/
def lookupF : List (List Char × JSValue) → List Char → JSValue
  | [], _ => .undefined
  | (k, v) :: rest, key => if k = key then v else lookupF rest key

/-- JS member access `v.key` for the non-throwing receivers that occur in the
modelled code paths (primitives box to objects without own properties; the
throwing receivers `null`/`undefined` are handled explicitly at each call
site that can reach them). -/
def getField (v : JSValue) (key : List Char) : JSValue :=
  match v with
  | .obj fs => lookupF fs key
  | _ => .undefined

/-- JS `a || b`. -/
def jsOr (a b : JSValue) : JSValue :=
  if jsTruthy a then a else b

/-- Replace the value of `key` (first occurrence) or append it, as JS
assignment to an object property does. -/
def setL (fs : List (List Char × JSValue)) (key : List Char) (v : JSValue) :
    List (List Char × JSValue) :=
  match fs with
  | [] => [(key, v)]
  | (k, w) :: rest => if k = key then (k, v) :: rest else (k, w) :: setL rest key v

/-- JS `a[k1][k2] = v` where `a[k1]` is an object (the only case the modelled
code reaches; other receivers are left unchanged here, where JS would throw). -/
def setField2 (v : JSValue) (k1 k2 : List Char) (val : JSValue) : JSValue :=
  match v with
  | .obj fs =>
    match lookupF fs k1 with
    | .obj gs => .obj (setL fs k1 (.obj (setL gs k2 val)))
    | _ => v
  | _ => v

/-! ## Character and string helpers -/

/-- The left-brace character. -/
def lbr : Char := '\x7b'

/-- The right-brace character. -/
def rbr : Char := '\x7d'

/-- `"\x7b\x7b"`, the opening of a placeholder token. -/
def lbb : List Char := [lbr, lbr]

/-- `"\x7d\x7d"`, the closing of a placeholder token. -/
def rbb : List Char := [rbr, rbr]

/-- The `\x7b\x7bNAME\x7d\x7d` placeholder for a variable name. -/
def braceTok (name : List Char) : List Char := lbb ++ name ++ rbb

/-- The character class `[A-Z_]` of the placeholder regex. -/
def isTok (c : Char) : Bool := (65 ≤ c.toNat && c.toNat ≤ 90) || c = '_'

/-- Whitespace for JS `String.prototype.trim` (the characters that occur in
the mapping documents). -/
def isSpaceJS (c : Char) : Bool :=
  c = ' ' || c = '\t' || c = '\n' || c = '\r' || c = '\x0b' || c = '\x0c'

/-- JS `s.trim()`. -/
def jsTrim (s : List Char) : List Char :=
  ((s.dropWhile isSpaceJS).reverse.dropWhile isSpaceJS).reverse

/-- JS `s.split(sep)` for a single-character separator. -/
def splitChar (sep : Char) : List Char → List (List Char)
  | [] => [[]]
  | c :: rest =>
    if c = sep then [] :: splitChar sep rest
    else
      match splitChar sep rest with
      | g :: gs => (c :: g) :: gs
      | [] => [[c]]

/-- Decimal rendering of an integer, as JS renders integral numbers. -/
def intChars (n : Int) : List Char := (toString n).toList

/-- Decimal rendering of a natural number. -/
def natChars (n : Nat) : List Char := (toString n).toList

mutual
/-- JS string coercion `String(v)` / template-literal interpolation `${v}`. -/
def jsToString : JSValue → List Char
  | .undefined => ("undefined").toList
  | .null => ("null").toList
  | .bool true => ("true").toList
  | .bool false => ("false").toList
  | .num n => intChars n
  | .str s => s
  | .arr xs => jsToStringElems xs
  | .obj _ => ("[object Object]").toList
/-- `Array.prototype.toString`: elements joined with commas,
`null`/`undefined` elements rendered empty. -/
def jsToStringElems : List JSValue → List Char
  | [] => []
  | [x] => jsToStringElem x
  | x :: rest => jsToStringElem x ++ ',' :: jsToStringElems rest
def jsToStringElem : JSValue → List Char
  | .null => []
  | .undefined => []
  | v => jsToString v
end

/-- One scan step of `s.split(pat).join(repl)` (JS string replace-all), with
explicit fuel; each step consumes at least one character, so fuel
`s.length` is enough. -/
def replaceAllFuel (pat repl : List Char) : Nat → List Char → List Char
  | 0, s => s
  | _ + 1, [] => []
  | fuel + 1, c :: rest =>
    if pat ≠ [] ∧ pat <+: (c :: rest) then
      repl ++ replaceAllFuel pat repl fuel (List.drop pat.length (c :: rest))
    else
      c :: replaceAllFuel pat repl fuel rest

/-- JS `s.split(pat).join(repl)`: replace every (leftmost, non-overlapping)
occurrence of `pat` in `s` by `repl`.  The patterns of the source are always
non-empty placeholder tokens. -/
def replaceAll (s pat repl : List Char) : List Char :=
  replaceAllFuel pat repl s.length s

/-- JS `$`-escape expansion in the replacement string of
`String.prototype.replace` (`$$`, `$&`, `` $` ``, `$'`; a string pattern has
no capture groups, so `$<digit>` stays literal). -/
def expandDollar (matched before after : List Char) : List Char → List Char
  | [] => []
  | '$' :: '$' :: r => '$' :: expandDollar matched before after r
  | '$' :: '&' :: r => matched ++ expandDollar matched before after r
  | '$' :: c :: r =>
    if c = Char.ofNat 96 then before ++ expandDollar matched before after r
    else if c = Char.ofNat 39 then after ++ expandDollar matched before after r
    else '$' :: c :: expandDollar matched before after r
  | c :: r => c :: expandDollar matched before after r

/-- Scanner for JS `s.replace(pat, repl)` with a string pattern: `pre` holds
the already-scanned characters in reverse. -/
def replaceFirstGo (pat repl : List Char) (pre rest : List Char) : List Char :=
  if pat <+: rest then
    pre.reverse ++ expandDollar pat pre.reverse (List.drop pat.length rest) repl ++
      List.drop pat.length rest
  else
    match rest with
    | [] => pre.reverse
    | c :: rest' => replaceFirstGo pat repl (c :: pre) rest'

/-- JS `s.replace(pat, repl)`: replace the first occurrence of `pat` only. -/
def replaceFirst (s pat repl : List Char) : List Char :=
  replaceFirstGo pat repl [] s

/-! ## The placeholder regex scan -/

/-- Try to match the regex `\x7b\x7b([A-Z_]+)\x7d\x7d` at the start of `s`;
on success return the captured name and the input after the match. -/
def tryMatch (s : List Char) : Option (List Char × List Char) :=
  if s.take 2 = lbb then
    if (s.drop 2).takeWhile isTok ≠ [] ∧ ((s.drop 2).dropWhile isTok).take 2 = rbb then
      some ((s.drop 2).takeWhile isTok, ((s.drop 2).dropWhile isTok).drop 2)
    else none
  else none

/-- Global regex scan `s.match(/\x7b\x7b([A-Z_]+)\x7d\x7d/g)` (captured names,
in match order, continuing after each match as the `g` flag does), with
explicit fuel; each step consumes at least one character. -/
def regexScanFuel : Nat → List Char → List (List Char)
  | 0, _ => []
  | fuel + 1, s =>
    match tryMatch s with
    | some (n, tail) => n :: regexScanFuel fuel tail
    | none =>
      match s with
      | [] => []
      | _ :: rest => regexScanFuel fuel rest

def regexScan (s : List Char) : List (List Char) := regexScanFuel s.length s

/-- Deduplication keeping first occurrences (`[...new Set(xs)]`), with the
already-seen elements as an accumulator. -/
def dedupAux (seen : List (List Char)) : List (List Char) → List (List Char)
  | [] => []
  | x :: rest => if x ∈ seen then dedupAux seen rest else x :: dedupAux (x :: seen) rest

def dedupKeepFirst (l : List (List Char)) : List (List Char) := dedupAux [] l

/-! ## Calculated fields -/

/-- `vars`: the flat state-variable mapping loaded from a state JSON file. -/
abbrev StateVars : Type := List (List Char × JSValue)

/-- Digit run parser: value so far, count of digits consumed, rest. -/
def digitsVal : List Char → Nat → Nat → Nat × Nat × List Char
  | [], acc, cnt => (acc, cnt, [])
  | c :: rest, acc, cnt =>
    if c.isDigit then digitsVal rest (acc * 10 + (c.toNat - 48)) (cnt + 1)
    else (acc, cnt, c :: rest)

/-- An exact decimal number `m / 10 ^ e`: the idealisation of the JS number
arithmetic of the calculated fields (every value they manipulate is a
decimal literal). -/
structure DecNum where
  m : Int
  e : Nat
deriving DecidableEq

def decOfInt (n : Int) : DecNum := ⟨n, 0⟩

def decMul (a b : DecNum) : DecNum := ⟨a.m * b.m, a.e + b.e⟩

def decAdd (a b : DecNum) : DecNum :=
  ⟨a.m * (10 : Int) ^ b.e + b.m * (10 : Int) ^ a.e, a.e + b.e⟩

def decDiv100 (a : DecNum) : DecNum := ⟨a.m, a.e + 2⟩

/-- Multiply by `10 ^ exp` (the exponent suffix of a float literal). -/
def decScalePow10 (a : DecNum) : Int → DecNum
  | .ofNat k => ⟨a.m * (10 : Int) ^ k, a.e⟩
  | .negSucc k => ⟨a.m, a.e + (k + 1)⟩

/-- Exponent suffix of a JS float literal (`e`/`E`, optional sign, digits);
`parseFloat` ignores a malformed exponent. -/
def parseExponent : List Char → Int
  | c :: rest =>
    if c = 'e' ∨ c = 'E' then
      match rest with
      | '+' :: r => (match digitsVal r 0 0 with | (v, cnt, _) => if cnt = 0 then 0 else (v : Int))
      | '-' :: r => (match digitsVal r 0 0 with | (v, cnt, _) => if cnt = 0 then 0 else -(v : Int))
      | r => (match digitsVal r 0 0 with | (v, cnt, _) => if cnt = 0 then 0 else (v : Int))
    else 0
  | [] => 0

/-- JS `parseFloat` on a string: longest valid leading float, `none` = `NaN`. -/
def parseFloatChars (s : List Char) : Option DecNum :=
  let s1 := s.dropWhile isSpaceJS
  let (neg, s2) :=
    match s1 with
    | '-' :: r => (true, r)
    | '+' :: r => (false, r)
    | r => (false, r)
  match digitsVal s2 0 0 with
  | (ip, icnt, s3) =>
    let (fp, fcnt, s4) :=
      match s3 with
      | '.' :: r => (match digitsVal r 0 0 with | (v, cnt, rest) => (v, cnt, rest))
      | r => (0, 0, r)
    if icnt + fcnt = 0 then none
    else
      let mag : DecNum := ⟨(ip : Int) * (10 : Int) ^ fcnt + (fp : Int), fcnt⟩
      some (decScalePow10 (if neg then ⟨-mag.m, mag.e⟩ else mag) (parseExponent s4))

/-- JS `parseFloat(v)` for the value shapes a state-variable mapping can
hold (`none` = `NaN`; non-string non-number values coerce to strings that
parse as `NaN`). -/
def parseFloatJS : JSValue → Option DecNum
  | .num n => some (decOfInt n)
  | .str s => parseFloatChars s
  | _ => none

/-- JS `x.toFixed(2)`: the sign of `x`, then the integer nearest `100·|x|`
(ties to the larger), rendered with two decimals. -/
def toFixed2 (d : DecNum) : List Char :=
  let n := (200 * d.m.natAbs + (10 : Nat) ^ d.e) / (2 * (10 : Nat) ^ d.e)
  let digits :=
    natChars (n / 100) ++ '.' ::
      (if n % 100 < 10 then '0' :: natChars (n % 100) else natChars (n % 100))
  if d.m < 0 then '-' :: digits else digits

/-- `x.toFixed(2)` where `x` may be `NaN` (`none`). -/
def toFixed2Opt : Option DecNum → List Char
  | some d => toFixed2 d
  | none => ("NaN").toList

/-- `parseFloat(vars.KEY || 0)`, the rate-reading idiom of every calculated
field. -/
def readRate (vars : StateVars) (key : List Char) : Option DecNum :=
  parseFloatJS (jsOr (lookupF vars key) (.num 0))

def calcStateTaxMonthly (vars : StateVars) (baseAmount : DecNum) : List Char :=
  '$' :: toFixed2Opt ((readRate vars (("INCOME_TAX_RATE").toList)).map (fun rate => decDiv100 (decMul baseAmount rate)))

def calcLocalTaxMonthly (vars : StateVars) (baseAmount : DecNum) : List Char :=
  '$' :: toFixed2Opt ((readRate vars (("LOCAL_INCOME_TAX").toList)).map (fun rate => decDiv100 (decMul baseAmount rate)))

def calcSdiMonthly (vars : StateVars) (baseAmount : DecNum) : List Char :=
  '$' :: toFixed2Opt ((readRate vars (("SDI_RATE").toList)).map (fun rate => decDiv100 (decMul baseAmount rate)))

def calcTotalStateDeductions (vars : StateVars) (baseAmount : DecNum) : List Char :=
  '$' :: toFixed2Opt (do
    let stateRate ← readRate vars (("INCOME_TAX_RATE").toList)
    let localRate ← readRate vars (("LOCAL_INCOME_TAX").toList)
    let sdiRate ← readRate vars (("SDI_RATE").toList)
    pure (decDiv100 (decMul baseAmount (decAdd stateRate (decAdd localRate sdiRate)))))

/-- The module-level `CALCULATED_FIELDS` table, in definition order. -/
def CALCULATED_FIELDS : List (List Char × (StateVars → DecNum → List Char)) :=
  [(("CALCULATED_STATE_TAX_MONTHLY").toList, calcStateTaxMonthly),
   (("CALCULATED_LOCAL_TAX_MONTHLY").toList, calcLocalTaxMonthly),
   (("CALCULATED_SDI_MONTHLY").toList, calcSdiMonthly),
   (("CALCULATED_TOTAL_STATE_DEDUCTIONS").toList, calcTotalStateDeductions)]

def CALC_FIELD_NAMES : List (List Char) := CALCULATED_FIELDS.map Prod.fst

/-! ## interpolateVariables -/

/-- The per-type display form of a state variable's value (numbers via
`toString`, booleans as Yes/No, null/undefined as N/A; any other value is
coerced by the `join` call). -/
def displayValue : JSValue → List Char
  | .num n => intChars n
  | .bool true => ("Yes").toList
  | .bool false => ("No").toList
  | .null => ("N/A").toList
  | .undefined => ("N/A").toList
  | .str s => s
  | v => jsToString v

/-- First pass: replace every `\x7b\x7bKEY\x7d\x7d` for every state-variable
key, in key order. -/
def interpPass1 (sv : StateVars) (t : List Char) : List Char :=
  sv.foldl (fun r kv => replaceAll r (braceTok kv.1) (displayValue kv.2)) t

/-- Second pass: replace every calculated-field placeholder (computed with
the default base amount 4000). -/
def interpPass2 (sv : StateVars) (t : List Char) : List Char :=
  CALCULATED_FIELDS.foldl (fun r f => replaceAll r (braceTok f.1) (f.2 sv (decOfInt 4000))) t

/-- Third pass: replace the first `\x7b\x7bCHAPTER_TITLE\x7d\x7d` and
`\x7b\x7bCHAPTER_SUBTITLE\x7d\x7d` with the content metadata, when content
data is supplied. -/
def interpPass3 (cd : JSValue) (t : List Char) : List Char :=
  if jsTruthy cd && jsTruthy (getField cd (("metadata").toList)) then
    replaceFirst
      (replaceFirst t (braceTok (("CHAPTER_TITLE").toList))
        (jsToString (jsOr (getField (getField cd (("metadata").toList)) (("title").toList))
          (.str []))))
      (braceTok (("CHAPTER_SUBTITLE").toList))
      (jsToString (jsOr (getField (getField cd (("metadata").toList)) (("subtitle").toList))
        (.str [])))
  else t

/-- `interpolateVariables(template, stateVars, contentData)`: the guard
returns `template || ''` for falsy or non-string input; otherwise the three
replacement passes run in order. -/
def interpolateVariables (template : JSValue) (stateVars : StateVars) (contentData : JSValue) :
    JSValue :=
  if !jsTruthy template || !isStrB template then
    (if jsTruthy template then template else .str [])
  else
    .str (interpPass3 contentData (interpPass2 stateVars (interpPass1 stateVars (strChars template))))

/-! ## parseChapterMapping -/

structure ChapterMapping where
  stateChapter : JSValue
  title : JSValue
deriving DecidableEq

/-- `row.split('|').map(col => col.trim()).filter(col => col)`. -/
def rowColumns (row : List Char) : List (List Char) :=
  ((splitChar '|' row).map jsTrim).filter (fun c => !c.isEmpty)

/-- The markdown-table rows of the mapping document: lines whose trimmed
form starts with `|`. -/
def tableRows (markdownContent : List Char) : List (List Char) :=
  (splitChar '\n' markdownContent).filter (fun line => ['|'] <+: jsTrim line)

/-- The object returned for a matching row: `columns[1]` (undefined when the
row has fewer cells) and `columns[2] || 'Unknown Chapter'`. -/
def rowResult (row : List Char) : ChapterMapping :=
  { stateChapter :=
      match (rowColumns row).get? 1 with
      | some s => .str s
      | none => .undefined
    title :=
      match (rowColumns row).get? 2 with
      | some s => .str s
      | none => .str (("Unknown Chapter").toList) }

/-- `parseChapterMapping(markdownContent, lChapter)`: first table row whose
first cell equals the chapter id wins; otherwise the warned fallback
(`lChapter.replace('L-', '')` removes the first occurrence of `L-`). -/
def parseChapterMapping (markdownContent lChapter : List Char) : ChapterMapping :=
  match (tableRows markdownContent).find? (fun row => (rowColumns row).head? == some lChapter) with
  | some row => rowResult row
  | none =>
    { stateChapter := .str (replaceFirst lChapter (("L-").toList) [])
      title := .str (("Unknown Chapter").toList) }

/-! ## JSON serialisation (`JSON.stringify`) -/

def hexDigit (n : Nat) : Char := if n < 10 then Char.ofNat (48 + n) else Char.ofNat (87 + n)

def escapeJSONChar (c : Char) : List Char :=
  if c = '"' then ['\\', '"']
  else if c = '\\' then ['\\', '\\']
  else if c.toNat = 8 then ['\\', 'b']
  else if c.toNat = 9 then ['\\', 't']
  else if c.toNat = 10 then ['\\', 'n']
  else if c.toNat = 12 then ['\\', 'f']
  else if c.toNat = 13 then ['\\', 'r']
  else if c.toNat < 32 then ['\\', 'u', '0', '0', hexDigit (c.toNat / 16), hexDigit (c.toNat % 16)]
  else [c]

def quoteJSON (s : List Char) : List Char :=
  '"' :: s.foldr (fun c acc => escapeJSONChar c ++ acc) ['"']

def joinComma : List (List Char) → List Char
  | [] => []
  | [x] => x
  | x :: rest => x ++ ',' :: joinComma rest

mutual
/-- `JSON.stringify(v)` (compact).  `undefined` at top level is unreachable
at the modelled call sites (the JS result there is the value `undefined`,
not a string). -/
def jsonStringify : JSValue → List Char
  | .undefined => []
  | .null => ("null").toList
  | .bool true => ("true").toList
  | .bool false => ("false").toList
  | .num n => intChars n
  | .str s => quoteJSON s
  | .arr xs => '[' :: joinComma (jsonStringifyElems xs) ++ [']']
  | .obj fs => lbr :: joinComma (jsonStringifyFields fs) ++ [rbr]
/-- Array elements: `undefined` serialises as `null`. -/
def jsonStringifyElems : List JSValue → List (List Char)
  | [] => []
  | .undefined :: rest => ("null").toList :: jsonStringifyElems rest
  | v :: rest => jsonStringify v :: jsonStringifyElems rest
/-- Object members: pairs with `undefined` values are skipped. -/
def jsonStringifyFields : List (List Char × JSValue) → List (List Char)
  | [] => []
  | (_, .undefined) :: rest => jsonStringifyFields rest
  | (k, v) :: rest => (quoteJSON k ++ ':' :: jsonStringify v) :: jsonStringifyFields rest
end

/-- `indent d`: the 2-space-per-level indentation of `JSON.stringify(·, null, 2)`. -/
def indent2 (d : Nat) : List Char := List.replicate (2 * d) ' '

def joinPrettyItems (pre : List Char) : List (List Char) → List Char
  | [] => []
  | [x] => pre ++ x
  | x :: rest => pre ++ x ++ ',' :: '\n' :: joinPrettyItems pre rest

mutual
/-- `JSON.stringify(v, null, 2)` at nesting depth `d`. -/
def jsonPretty (d : Nat) : JSValue → List Char
  | .undefined => []
  | .null => ("null").toList
  | .bool true => ("true").toList
  | .bool false => ("false").toList
  | .num n => intChars n
  | .str s => quoteJSON s
  | .arr xs =>
    match jsonPrettyElems (d + 1) xs with
    | [] => ('[') :: [']']
    | items => '[' :: '\n' :: joinPrettyItems (indent2 (d + 1)) items ++ '\n' :: indent2 d ++ [']']
  | .obj fs =>
    match jsonPrettyFields (d + 1) fs with
    | [] => lbr :: [rbr]
    | items => lbr :: '\n' :: joinPrettyItems (indent2 (d + 1)) items ++ '\n' :: indent2 d ++ [rbr]
def jsonPrettyElems (d : Nat) : List JSValue → List (List Char)
  | [] => []
  | .undefined :: rest => ("null").toList :: jsonPrettyElems d rest
  | v :: rest => jsonPretty d v :: jsonPrettyElems d rest
def jsonPrettyFields (d : Nat) : List (List Char × JSValue) → List (List Char)
  | [] => []
  | (_, .undefined) :: rest => jsonPrettyFields d rest
  | (k, v) :: rest => (quoteJSON k ++ ':' :: ' ' :: jsonPretty d v) :: jsonPrettyFields d rest
end

/-! ## Layout generators -/

/-- Sequential `forEach` in the `Except` monad (a thrown `TypeError` aborts
the whole slide build). -/
def concatE : List JSValue → (JSValue → Except Unit (List Char)) → Except Unit (List Char)
  | [], _ => .ok []
  | x :: rest, f => do
    let s ← f x
    let t ← concatE rest f
    .ok (s ++ t)

/-- `if (v) { v.forEach(...) }`: skipped when falsy, iterated when an array,
a `TypeError` when truthy but not an array. -/
def jsForEachE (v : JSValue) (f : JSValue → Except Unit (List Char)) : Except Unit (List Char) :=
  match v with
  | .arr xs => concatE xs f
  | w => if jsTruthy w then .error () else .ok []

def jsForEach (v : JSValue) (f : JSValue → List Char) : Except Unit (List Char) :=
  jsForEachE v (fun x => .ok (f x))

/-- `${interpolateVariables(x, stateVars, null)}`: interpolation followed by
template-literal coercion. -/
def interpS (x : JSValue) (stateVars : StateVars) : List Char :=
  jsToString (interpolateVariables x stateVars .null)

def objectiveItemHTML (o : JSValue) (stateVars : StateVars) : List Char :=
  ("  <div class=\"objective-item\">\n    <div class=\"objective-number\">").toList ++
  jsToString (getField o (("number").toList)) ++
  ("</div>\n    <div class=\"objective-content\">\n      <div class=\"objective-verb\">").toList ++
  interpS (getField o (("verb").toList)) stateVars ++
  ("</div>\n      <div class=\"objective-description\">").toList ++
  interpS (getField o (("description").toList)) stateVars ++
  ("</div>\n    </div>\n  </div>\n").toList

def generateObjectivesLayout (data : JSValue) (stateVars : StateVars) :
    Except Unit (List Char) := do
  let body ← jsForEach (getField data (("objectives").toList))
    (fun o => objectiveItemHTML o stateVars)
  pure (("<div class=\"objectives-expanded\">\n").toList ++ body ++ ("</div>\n").toList)

def vocabCardHTML (t : JSValue) (stateVars : StateVars) : List Char :=
  ("  <div class=\"vocab-card\">\n    <div class=\"vocab-term\">").toList ++
  interpS (getField t (("term").toList)) stateVars ++
  ("</div>\n    <div class=\"vocab-definition\">").toList ++
  interpS (getField t (("definition").toList)) stateVars ++
  ("</div>\n  </div>\n").toList

def generateVocabLayout (data : JSValue) (stateVars : StateVars) : Except Unit (List Char) := do
  let body ← jsForEach (getField data (("terms").toList)) (fun t => vocabCardHTML t stateVars)
  pure (("<div class=\"vocab-container\">\n").toList ++ body ++ ("</div>\n").toList)

def comparisonColumnHTML (col : JSValue) (stateVars : StateVars) : Except Unit (List Char) := do
  let items ← jsForEach (getField col (("items").toList))
    (fun item => ("      <li>").toList ++ interpS item stateVars ++ ("</li>\n").toList)
  pure (("  <div class=\"comparison-column\">\n    <div class=\"comparison-header\">").toList ++
    interpS (getField col (("header").toList)) stateVars ++
    ("</div>\n    <ul class=\"comparison-list\">\n").toList ++ items ++
    ("    </ul>\n  </div>\n").toList)

def generateComparisonLayout (data : JSValue) (stateVars : StateVars) :
    Except Unit (List Char) := do
  let body ← jsForEachE (getField data (("columns").toList))
    (fun col => comparisonColumnHTML col stateVars)
  pure (("<div class=\"comparison-grid\">\n").toList ++ body ++ ("</div>\n").toList)

def generateScenarioLayout (data : JSValue) (stateVars : StateVars) : Except Unit (List Char) :=
  .ok (("<div class=\"scenario-layout\">\n").toList ++
    (if jsTruthy (getField data (("title").toList)) then
      ("  <h2>").toList ++ interpS (getField data (("title").toList)) stateVars ++
        ("</h2>\n").toList
    else []) ++
    (if jsTruthy (getField data (("description").toList)) then
      ("  <p class=\"scenario-description\">").toList ++
        interpS (getField data (("description").toList)) stateVars ++ ("</p>\n").toList
    else []) ++
    (if jsTruthy (getField data (("highlightBox").toList)) then
      ("  <div class=\"highlight-box\">\n    <span class=\"highlight-icon\">").toList ++
        jsToString (getField (getField data (("highlightBox").toList)) (("icon").toList)) ++
        ("</span>\n    <span class=\"highlight-text\">").toList ++
        interpS (getField (getField data (("highlightBox").toList)) (("text").toList)) stateVars ++
        ("</span>\n  </div>\n").toList
    else []) ++
    ("</div>\n").toList)

def takeawayCardHTML (item : JSValue) (stateVars : StateVars) : List Char :=
  ("  <div class=\"takeaway-card\">\n    <div class=\"takeaway-icon\">").toList ++
  jsToString (getField item (("icon").toList)) ++
  ("</div>\n    <div class=\"takeaway-text\">").toList ++
  interpS (getField item (("text").toList)) stateVars ++
  ("</div>\n  </div>\n").toList

def generateTakeawayLayout (data : JSValue) (stateVars : StateVars) : Except Unit (List Char) := do
  let body ← jsForEach (getField data (("takeaways").toList))
    (fun item => takeawayCardHTML item stateVars)
  pure (("<div class=\"takeaway-grid\">\n").toList ++ body ++ ("</div>\n").toList)

def paycheckLineHTML (line : JSValue) (stateVars : StateVars) : List Char :=
  ("  <div class=\"paycheck-line ").toList ++
  jsToString (jsOr (getField line (("type").toList)) (.str [])) ++ ('"') ::
  (if jsTruthy (getField line (("isStateVariable").toList)) then
    (" data-state-variable=\"true\"").toList
  else []) ++
  (">\n    <span class=\"label\">").toList ++
  interpS (getField line (("label").toList)) stateVars ++
  ("</span>\n    <span class=\"amount\">").toList ++
  interpS (getField line (("amount").toList)) stateVars ++
  ("</span>\n  </div>\n").toList

def generatePaycheckLayout (data : JSValue) (stateVars : StateVars) : Except Unit (List Char) := do
  let body ← jsForEach (getField data (("lines").toList))
    (fun line => paycheckLineHTML line stateVars)
  pure (("<div class=\"paycheck-breakdown\">\n  <h3>Monthly Paycheck Breakdown</h3>\n").toList ++
    body ++ ("</div>\n").toList)

def generateBulletListLayout (data : JSValue) (stateVars : StateVars) :
    Except Unit (List Char) := do
  let body ←
    (if jsTruthy (getField data (("items").toList)) then do
      let lis ← jsForEach (getField data (("items").toList))
        (fun item => ("    <li>").toList ++ interpS item stateVars ++ ("</li>\n").toList)
      pure (("  <ul>\n").toList ++ lis ++ ("  </ul>\n").toList)
    else pure [])
  pure (("<div class=\"bullet-list-full\">\n").toList ++ body ++ ("</div>\n").toList)

/-- The fallback for unknown layouts: the raw layout data as a pretty-printed
preformatted block.  (`stateVars` is taken and ignored, as in the source.) -/
def generateGenericLayout (data : JSValue) (_stateVars : StateVars) : List Char :=
  ("<div class=\"generic-content\">\n  <pre>").toList ++ jsonPretty 0 data ++
    ("</pre>\n</div>\n").toList

/-- `generateLayoutContent(content, stateVars)`: empty fragment for falsy
content or falsy layout name; otherwise dispatch on the layout name with the
generic renderer as the default case. -/
def generateLayoutContent (content : JSValue) (stateVars : StateVars) :
    Except Unit (List Char) :=
  if !jsTruthy content || !jsTruthy (getField content (("layout").toList)) then .ok []
  else
    let layoutData := jsOr (getField content (("layoutData").toList)) (.obj [])
    let lay := getField content (("layout").toList)
    if lay = .str (("objectives-expanded").toList) then generateObjectivesLayout layoutData stateVars
    else if lay = .str (("vocab-container").toList) then generateVocabLayout layoutData stateVars
    else if lay = .str (("comparison-grid").toList) then generateComparisonLayout layoutData stateVars
    else if lay = .str (("scenario-layout").toList) then generateScenarioLayout layoutData stateVars
    else if lay = .str (("takeaway-grid").toList) then generateTakeawayLayout layoutData stateVars
    else if lay = .str (("paycheck-breakdown").toList) then generatePaycheckLayout layoutData stateVars
    else if lay = .str (("bullet-list-full").toList) then generateBulletListLayout layoutData stateVars
    else .ok (generateGenericLayout layoutData stateVars)

/-! ## validateContentJSON -/

def msgMissingMetadata : List Char := ("Missing metadata object").toList
def msgMissingLChapter : List Char := ("Missing metadata.lChapter").toList
def msgMissingTitle : List Char := ("Missing metadata.title").toList
def msgMissingHasStateVariables : List Char := ("Missing metadata.hasStateVariables").toList
def msgMissingSlides : List Char := ("Missing or invalid slides array").toList

def slideWarning (i : Nat) (what : List Char) : List Char :=
  ("Slide ").toList ++ natChars i ++ (": missing ").toList ++ what

/-- Per-slide soft warnings; accessing `.number` on a `null`/`undefined`
array entry throws. -/
def slideWarningsE (i : Nat) : List JSValue → Except Unit (List (List Char))
  | [] => .ok []
  | s :: rest =>
    if s = .null ∨ s = .undefined then .error ()
    else do
      let ws :=
        (if !jsTruthy (getField s (("number").toList)) then [slideWarning i (("number").toList)]
         else []) ++
        (if !jsTruthy (getField s (("type").toList)) then [slideWarning i (("type").toList)]
         else []) ++
        (if !jsTruthy (getField s (("content").toList)) then [slideWarning i (("content").toList)]
         else [])
      let more ← slideWarningsE (i + 1) rest
      .ok (ws ++ more)

/-- `new Set(x || [])` where the set is only queried with strings: the
declared names.  A truthy non-iterable argument throws; a string iterates
into its characters. -/
def jsSetOfDeclared : JSValue → Except Unit (List JSValue)
  | .arr xs => .ok xs
  | .str s => .ok (s.map (fun c => .str [c]))
  | v => if jsTruthy v then .error () else .ok []

def undeclaredWarning (v : List Char) : List Char :=
  ("Variable ").toList ++ braceTok v ++ (" used but not declared in stateVariablesUsed").toList

/-- The error and warning lists `validateContentJSON` accumulates over a
parsed document (the body of its `try` block after `JSON.parse`), or
`.error` when that body throws a `TypeError`. -/
def validateLists (data : JSValue) : Except Unit (List (List Char) × List (List Char)) :=
  let md := getField data (("metadata").toList)
  let errors1 :=
    if !jsTruthy md then [msgMissingMetadata]
    else
      (if !jsTruthy (getField md (("lChapter").toList)) then [msgMissingLChapter] else []) ++
      (if !jsTruthy (getField md (("title").toList)) then [msgMissingTitle] else []) ++
      (if getField md (("hasStateVariables").toList) = .undefined then [msgMissingHasStateVariables]
       else [])
  let slides := getField data (("slides").toList)
  let errors2 := errors1 ++ (if isArrB slides then [] else [msgMissingSlides])
  match (if isArrB slides then slideWarningsE 0 (jsElems slides) else .ok []) with
  | .error e => .error e
  | .ok warn1 =>
    if jsTruthy md && jsTruthy (getField md (("hasStateVariables").toList)) then
      let contentString := jsonStringify data
      let foundVars := dedupKeepFirst (regexScan contentString)
      let warn2 :=
        if foundVars.isEmpty then
          [("hasStateVariables is true but no ").toList ++ braceTok (("PLACEHOLDERS").toList) ++
            (" found").toList]
        else []
      match jsSetOfDeclared (getField md (("stateVariablesUsed").toList)) with
      | .error e => .error e
      | .ok declared =>
        let warn3 :=
          (foundVars.filter
            (fun v => !declared.contains (.str v) && !CALC_FIELD_NAMES.contains v)).map
            undeclaredWarning
        .ok (errors2, warn1 ++ warn2 ++ warn3)
    else .ok (errors2, warn1)

/-- `validateContentJSON` on an already-parsed document: the returned
boolean is `errors.length === 0`; any `TypeError` thrown inside the `try`
block is caught and reported as `false`.  (Accessing `.metadata` on a parsed
top-level `null` throws before any error is recorded.) -/
def validateContentJSON (data : JSValue) : Bool :=
  if data = .null ∨ data = .undefined then false
  else
    match validateLists data with
    | .ok (errors, _) => errors.isEmpty
    | .error _ => false

/-! ## detectStateVariables (converter) -/

/-- The converter's fixed list of known state-variable names. -/
def STATE_VARIABLES : List (List Char) :=
  [("STATE_NAME").toList, ("STATE_GRANT_PROGRAM").toList, ("STATE_TUITION_PUBLIC").toList,
   ("STATE_TUITION_COMMUNITY").toList, ("MIN_WAGE").toList, ("INCOME_TAX_RATE").toList,
   ("SALES_TAX").toList, ("LOCAL_SALES_TAX_MAX").toList, ("COMBINED_SALES_TAX_MAX").toList,
   ("PROPERTY_TAX_COUNTY_RATE").toList, ("ASSESSMENT_PERCENTAGE").toList,
   ("HOMESTEAD_EXEMPTION").toList, ("MEDIAN_HOME_PRICE").toList, ("MEDIAN_RENT").toList,
   ("AVG_MORTGAGE_RATE_30YR").toList, ("REGISTRATION_INITIAL").toList,
   ("REGISTRATION_ANNUAL").toList, ("GAS_PRICE_CURRENT").toList, ("INSURANCE_AVG_TEEN").toList,
   ("AVG_AUTO_LOAN_RATE_NEW").toList, ("AVG_AUTO_LOAN_RATE_USED").toList,
   ("UNEMPLOYMENT_RATE").toList, ("MAJOR_INDUSTRIES").toList, ("MAJOR_CITY").toList,
   ("MAJOR_CITY_1").toList, ("MAJOR_CITY_2").toList, ("AVG_MONTHLY_FEE").toList,
   ("AVG_OVERDRAFT_FEE").toList, ("LOCAL_CREDIT_UNION_NAME").toList, ("DMV_URL").toList,
   ("TAX_AUTHORITY_URL").toList, ("LABOR_DEPARTMENT_URL").toList,
   ("CONSUMER_PROTECTION_URL").toList]

/-- `detectStateVariables(content)`: known names found literally in the
serialised document, then every regex-matched placeholder name not already
collected, deduplicated (`[...new Set(found)]`). -/
def detectStateVariables (content : JSValue) : List (List Char) :=
  let contentStr := jsonStringify content
  let found1 := STATE_VARIABLES.filter
    (fun v => decide (braceTok v <:+: contentStr) || decide (v <:+: contentStr))
  let found2 := (regexScan contentStr).foldl
    (fun acc m => if m ∈ acc then acc else acc ++ [m]) found1
  dedupKeepFirst found2

/-- Lines 1389–1392 of the converter: run detection over the assembled
document and store the results into its metadata. -/
def applyStateVarDetection (jsonOutput : JSValue) : JSValue :=
  let stateVars := detectStateVariables jsonOutput
  let j1 := setField2 jsonOutput (("metadata").toList) (("hasStateVariables").toList)
    (.bool (decide (0 < stateVars.length)))
  setField2 j1 (("metadata").toList) (("stateVariablesUsed").toList)
    (.arr (stateVars.map .str))

/-- The seven named layouts of the dispatch switch. -/
def knownLayouts : List JSValue :=
  [.str (("objectives-expanded").toList), .str (("vocab-container").toList),
   .str (("comparison-grid").toList), .str (("scenario-layout").toList),
   .str (("takeaway-grid").toList), .str (("paycheck-breakdown").toList),
   .str (("bullet-list-full").toList)]

/-! ## Lemmas: replacement is the identity when the pattern does not occur -/

theorem replaceAllFuel_absent (pat repl : List Char) :
    ∀ fuel s, ¬ (pat <:+: s) → replaceAllFuel pat repl fuel s = s := by
  intro fuel
  induction fuel with
  | zero => intro s _; rfl
  | succ n ih =>
    intro s h
    cases s with
    | nil => rfl
    | cons c rest =>
      simp only [replaceAllFuel]
      rw [if_neg (fun hc => h hc.2.isInfix),
        ih rest (fun hin => h (hin.trans (List.suffix_cons c rest).isInfix))]

theorem replaceAll_absent (s pat repl : List Char) (h : ¬ (pat <:+: s)) :
    replaceAll s pat repl = s :=
  replaceAllFuel_absent pat repl s.length s h

theorem replaceFirstGo_absent (pat repl : List Char) :
    ∀ rest pre, ¬ (pat <:+: rest) → replaceFirstGo pat repl pre rest = pre.reverse ++ rest := by
  intro rest
  induction rest with
  | nil =>
    intro pre h
    have hne : ¬ (pat <+: ([] : List Char)) := fun hc => h hc.isInfix
    simp only [replaceFirstGo]
    rw [if_neg hne]
    simp
  | cons c rest ih =>
    intro pre h
    simp only [replaceFirstGo]
    rw [if_neg (fun hc => h hc.isInfix),
      ih (c :: pre) (fun hin => h (hin.trans (List.suffix_cons c rest).isInfix))]
    simp

theorem replaceFirst_absent (s pat repl : List Char) (h : ¬ (pat <:+: s)) :
    replaceFirst s pat repl = s := by
  rw [replaceFirst, replaceFirstGo_absent pat repl s [] h]
  rfl

theorem foldlFixed {α β : Type} (l : List α) (f : β → α → β) (b : β)
    (h : ∀ x ∈ l, f b x = b) : l.foldl f b = b := by
  induction l with
  | nil => rfl
  | cons a l ih =>
    rw [List.foldl_cons, h a (List.mem_cons_self a l)]
    exact ih (fun x hx => h x (List.mem_cons_of_mem a hx))

/-- An input string with no matching placeholder is a fixed point of the
interpolator. -/
theorem interpolateVariables_fixed (T : List Char) (sv : StateVars) (cd : JSValue)
    (h1 : ∀ kv ∈ sv, ¬ (braceTok kv.1 <:+: T))
    (h2 : ∀ n ∈ CALC_FIELD_NAMES, ¬ (braceTok n <:+: T))
    (h3 : ¬ (braceTok (("CHAPTER_TITLE").toList) <:+: T))
    (h4 : ¬ (braceTok (("CHAPTER_SUBTITLE").toList) <:+: T)) :
    interpolateVariables (.str T) sv cd = .str T := by
  have hp1 : interpPass1 sv T = T :=
    foldlFixed sv _ T (fun kv hkv => replaceAll_absent T _ _ (h1 kv hkv))
  have hp2 : interpPass2 sv T = T :=
    foldlFixed CALCULATED_FIELDS _ T
      (fun f hf =>
        replaceAll_absent T _ _ (h2 f.1 (List.mem_map_of_mem Prod.fst hf)))
  have hp3 : interpPass3 cd T = T := by
    rw [interpPass3]
    split
    · rw [replaceFirst_absent T _ _ h3, replaceFirst_absent T _ _ h4]
    · rfl
  cases T with
  | nil => rfl
  | cons c rest =>
    rw [interpolateVariables]
    rw [if_neg (by simp [jsTruthy, isStrB])]
    rw [strChars, hp1, hp2, hp3]

theorem find?_of_filter {α : Type} (l : List α) (P : α → Bool) (r : α) (rs : List α)
    (h : l.filter P = r :: rs) : l.find? P = some r := by
  induction l with
  | nil => simp at h
  | cons a l ih =>
    by_cases hp : P a = true
    · rw [List.filter_cons_of_pos hp] at h
      rw [List.find?_cons_of_pos _ hp]
      exact congrArg some (List.cons.inj h).1
    · rw [List.filter_cons_of_neg (by simpa using hp)] at h
      rw [List.find?_cons_of_neg _ hp]
      exact ih h

/-! ## Claim theorems -/

/-- C5: for every string `T` containing no token matched by any
state-variable key, calculated-field name, or metadata placeholder (already
fully resolved text), and every state-variable set and content document,
running the interpolator twice gives the same result as running it once:
interpolation is idempotent on fully-resolved text. -/
theorem interpolate_idempotent_on_resolved (T : List Char) (sv : StateVars) (cd : JSValue)
    (h1 : ∀ kv ∈ sv, ¬ (braceTok kv.1 <:+: T))
    (h2 : ∀ n ∈ CALC_FIELD_NAMES, ¬ (braceTok n <:+: T))
    (h3 : ¬ (braceTok (("CHAPTER_TITLE").toList) <:+: T))
    (h4 : ¬ (braceTok (("CHAPTER_SUBTITLE").toList) <:+: T)) :
    interpolateVariables (interpolateVariables (.str T) sv cd) sv cd =
      interpolateVariables (.str T) sv cd := by
  simp only [interpolateVariables_fixed T sv cd h1 h2 h3 h4]

/-- C5 witness: a concrete already-resolved string, state-variable set and
content document satisfying the hypotheses. -/
theorem interpolate_idempotent_on_resolved_witness :
    interpolateVariables
        (interpolateVariables (.str (("All resolved text.").toList))
          [(("STATE_NAME").toList, .str (("Texas").toList)), (("MIN_WAGE").toList, .num 12)]
          (.obj [(("metadata").toList, .obj [(("title").toList, .str (("T").toList))])]))
        [(("STATE_NAME").toList, .str (("Texas").toList)), (("MIN_WAGE").toList, .num 12)]
        (.obj [(("metadata").toList, .obj [(("title").toList, .str (("T").toList))])]) =
      interpolateVariables (.str (("All resolved text.").toList))
        [(("STATE_NAME").toList, .str (("Texas").toList)), (("MIN_WAGE").toList, .num 12)]
        (.obj [(("metadata").toList, .obj [(("title").toList, .str (("T").toList))])]) :=
  interpolate_idempotent_on_resolved _ _ _ (by decide) (by decide) (by decide) (by decide)

/-- C1 counterexample: the number `42` is neither null, undefined, nor a
string, yet the interpolator returns it unchanged — not the empty string the
claim requires. -/
theorem interpolate_truthy_nonstring_counterexample :
    interpolateVariables (.num 42) [] .null = .num 42 ∧
      JSValue.num 42 ≠ .str [] := by decide

/-- C1 (amended): for every non-string input the interpolator never throws
and returns `template || ''`: the empty string when the input is falsy
(null, undefined, 0, false), and the input itself unchanged when it is a
truthy non-string value (such as a non-zero number or an object). -/
theorem interpolate_nonstring_guard (v : JSValue) (sv : StateVars) (cd : JSValue)
    (h : isStrB v = false) :
    (jsTruthy v = false → interpolateVariables v sv cd = .str []) ∧
    (jsTruthy v = true → interpolateVariables v sv cd = v) := by
  constructor <;> intro ht <;> simp [interpolateVariables, h, ht]

/-- C1 witness: the guard at the concrete falsy non-string input `null`. -/
theorem interpolate_nonstring_guard_witness :
    interpolateVariables .null [] .null = .str [] :=
  (interpolate_nonstring_guard .null [] .null (by decide)).1 (by decide)

/-- C3 counterexample: for the query id `XL-02` (matched by no row of the
empty mapping text), the fallback state chapter comes from removing the
first occurrence of `L-` (`X02`), not from stripping a leading `L-` (which
`XL-02` does not have, so the claim predicts `XL-02` unchanged). -/
theorem parseChapterMapping_fallback_counterexample :
    parseChapterMapping [] (("XL-02").toList) =
        ⟨.str (("X02").toList), .str (("Unknown Chapter").toList)⟩ ∧
      parseChapterMapping [] (("XL-02").toList) ≠
        ⟨.str (("XL-02").toList), .str (("Unknown Chapter").toList)⟩ := by decide

/-- C3 (amended): given mapping text containing the table row
`| L-03 | 1.3 | Income and Taxes |` and query `L-03`, the resolver returns
state chapter `1.3` with title `Income and Taxes`; and for every mapping
text with no row whose first cell equals the query id it returns the id with
the first occurrence of `L-` removed (the leading `L-` for well-formed
`L-NN` ids) and title `Unknown Chapter`, never throwing (the model is a
total function). -/
theorem parseChapterMapping_resolution :
    (parseChapterMapping
        (("# Chapter Mapping\n\n| Chapter | State | Title |\n|---|---|---|\n| L-03 | 1.3 | Income and Taxes |\n").toList)
        (("L-03").toList) =
      ⟨.str (("1.3").toList), .str (("Income and Taxes").toList)⟩) ∧
    ∀ md id, (∀ row ∈ tableRows md, (rowColumns row).head? ≠ some id) →
      parseChapterMapping md id =
        ⟨.str (replaceFirst id (("L-").toList) []), .str (("Unknown Chapter").toList)⟩ := by
  constructor
  · decide
  · intro md id h
    rw [parseChapterMapping]
    have hn : (tableRows md).find? (fun row => (rowColumns row).head? == some id) = none :=
      List.find?_eq_none.mpr (fun x hx => by simpa using h x hx)
    rw [hn]

/-- C3 witness: the spec's own example — absent id `L-99` falls back to
state chapter `99` and title `Unknown Chapter`. -/
theorem parseChapterMapping_resolution_witness :
    parseChapterMapping (("no table here").toList) (("L-99").toList) =
      ⟨.str (("99").toList), .str (("Unknown Chapter").toList)⟩ := by
  rw [parseChapterMapping_resolution.2 (("no table here").toList) (("L-99").toList) (by decide)]
  decide

/-- C10: when two or more table rows match the queried chapter id, the
resolver returns the state chapter and title of the earliest matching row in
line order, ignoring all later matching rows. -/
theorem parseChapterMapping_first_match (md id : List Char) (r : List Char)
    (rs : List (List Char))
    (hf : (tableRows md).filter (fun row => (rowColumns row).head? == some id) = r :: rs)
    (_htwo : 1 ≤ rs.length) :
    parseChapterMapping md id = rowResult r := by
  rw [parseChapterMapping, find?_of_filter _ _ r rs hf]

/-- C10 witness: a mapping text with two `L-03` rows resolves to the first
one (`1.3` / `A`), not the second. -/
theorem parseChapterMapping_first_match_witness :
    parseChapterMapping (("| L-03 | 1.3 | A |\n| L-03 | 9.9 | B |").toList) (("L-03").toList) =
      ⟨.str (("1.3").toList), .str (("A").toList)⟩ := by
  rw [parseChapterMapping_first_match (("| L-03 | 1.3 | A |\n| L-03 | 9.9 | B |").toList)
    (("L-03").toList) (("| L-03 | 1.3 | A |").toList) [(("| L-03 | 9.9 | B |").toList)]
    (by decide) (by decide)]
  decide

/-- C8: when the `objectives` field of the layout data is absent or an empty
list, the objectives-expanded renderer produces exactly the wrapping
container with no child objective cards, and does not fail. -/
theorem objectives_empty_renders_container (data : JSValue) (sv : StateVars)
    (h : getField data (("objectives").toList) = .undefined ∨
         getField data (("objectives").toList) = .arr []) :
    generateObjectivesLayout data sv =
      .ok (("<div class=\"objectives-expanded\">\n</div>\n").toList) := by
  rcases h with h | h <;>
    simp only [generateObjectivesLayout, h, jsForEach, jsForEachE, jsTruthy, concatE,
      Bind.bind, Except.bind, pure, Except.pure] <;> decide

/-- C8 witness: the two concrete cases — no `objectives` key, and an
explicit empty list. -/
theorem objectives_empty_renders_container_witness :
    generateObjectivesLayout (.obj [(("objectives").toList, .arr [])]) [] =
      .ok (("<div class=\"objectives-expanded\">\n</div>\n").toList) :=
  objectives_empty_renders_container (.obj [(("objectives").toList, .arr [])]) []
    (Or.inr (by decide))

/-- C2 counterexample: for a slide content value with no layout name at all
(`\x7b\x7d`), the dispatcher returns the empty fragment, not the generic
renderer's preformatted serialisation of the raw layout data that the claim
requires for an absent layout name. -/
theorem generateLayoutContent_absent_counterexample :
    generateLayoutContent (.obj []) [] = .ok [] ∧
      (Except.ok [] : Except Unit (List Char)) ≠
        .ok (generateGenericLayout
          (jsOr (getField (.obj []) (("layoutData").toList)) (.obj [])) []) := by decide

/-- C2 (amended): when the layout name is present (truthy) but not one of
the seven named layouts, the dispatcher falls back to the generic renderer,
producing the fragment that serialises the raw `layoutData`
(`content.layoutData || \x7b\x7d`) as a preformatted text block, and cannot
fail on that path; when the layout name (or the whole content value) is
absent or falsy, it instead returns the empty fragment without failing. -/
theorem generateLayoutContent_dispatch (content : JSValue) (sv : StateVars) :
    (jsTruthy content = true →
      jsTruthy (getField content (("layout").toList)) = true →
      getField content (("layout").toList) ∉ knownLayouts →
      generateLayoutContent content sv =
        .ok (generateGenericLayout
          (jsOr (getField content (("layoutData").toList)) (.obj [])) sv)) ∧
    (jsTruthy content = false ∨ jsTruthy (getField content (("layout").toList)) = false →
      generateLayoutContent content sv = .ok []) := by
  constructor
  · intro h1 h2 h3
    rw [generateLayoutContent, if_neg (by rw [h1, h2]; decide)]
    rw [if_neg (fun he => h3 (by rw [he]; decide))]
    rw [if_neg (fun he => h3 (by rw [he]; decide))]
    rw [if_neg (fun he => h3 (by rw [he]; decide))]
    rw [if_neg (fun he => h3 (by rw [he]; decide))]
    rw [if_neg (fun he => h3 (by rw [he]; decide))]
    rw [if_neg (fun he => h3 (by rw [he]; decide))]
    rw [if_neg (fun he => h3 (by rw [he]; decide))]
  · intro h
    rcases h with h | h <;> rw [generateLayoutContent, if_pos (by rw [h]; simp)]

/-- C2 witness: a concrete unknown layout name dispatches to the generic
renderer over its raw layout data. -/
theorem generateLayoutContent_dispatch_witness :
    generateLayoutContent
        (.obj [(("layout").toList, .str (("mystery-layout").toList)),
               (("layoutData").toList, .obj [(("x").toList, .num 7)])]) [] =
      .ok (generateGenericLayout (.obj [(("x").toList, .num 7)]) []) := by
  rw [(generateLayoutContent_dispatch
      (.obj [(("layout").toList, .str (("mystery-layout").toList)),
             (("layoutData").toList, .obj [(("x").toList, .num 7)])]) []).1
    (by decide) (by decide) (by decide)]
  decide

/-- When `validateContentJSON`'s body completes without throwing, the hard
error list is exactly the metadata/slides checks (the later state-variable
section only adds warnings). -/
theorem validateLists_ok_errors (data : JSValue) (es ws : List (List Char))
    (h : validateLists data = .ok (es, ws)) :
    es =
      (if !jsTruthy (getField data (("metadata").toList)) then [msgMissingMetadata]
       else
         (if !jsTruthy (getField (getField data (("metadata").toList)) (("lChapter").toList))
          then [msgMissingLChapter] else []) ++
         (if !jsTruthy (getField (getField data (("metadata").toList)) (("title").toList))
          then [msgMissingTitle] else []) ++
         (if getField (getField data (("metadata").toList)) (("hasStateVariables").toList) = .undefined
          then [msgMissingHasStateVariables] else [])) ++
      (if isArrB (getField data (("slides").toList)) then [] else [msgMissingSlides]) := by
  simp only [validateLists] at h
  split at h
  · exact absurd h (by simp)
  · split at h
    · split at h
      · exact absurd h (by simp)
      · exact ((Prod.mk.inj (Except.ok.inj h)).1).symm
    · exact ((Prod.mk.inj (Except.ok.inj h)).1).symm

theorem getField_obj_ne_nullish {data : JSValue} {k : List Char}
    {m : List (List Char × JSValue)} (hm : getField data k = .obj m) :
    ¬ (data = .null ∨ data = .undefined) := by
  rintro (rfl | rfl) <;> simp [getField] at hm

/-- C6 (amended): whenever the validator's body completes without an
internal exception (yielding error list `es` and warning list `ws`), the
returned boolean is pass exactly when `es` is empty; `es` is empty exactly
when none of the five hard-error conditions holds (metadata present,
`lChapter` and `title` truthy, `hasStateVariables` explicitly defined,
`slides` an array) — the warnings `ws` never enter the boolean; and in
particular a document whose `metadata.title` is missing (falsy) fails.  The
completion proviso is forced by the counterexample: a `TypeError` inside the
`try` block (e.g. a `null` slide entry, or a truthy non-iterable
`stateVariablesUsed`) is caught and reported as fail even with zero hard
errors. -/
theorem validateContentJSON_pass_iff (data : JSValue) (es ws : List (List Char))
    (h : validateLists data = .ok (es, ws)) :
    (validateContentJSON data = true ↔ es = []) ∧
    (es = [] ↔
      (jsTruthy (getField data (("metadata").toList)) = true ∧
       jsTruthy (getField (getField data (("metadata").toList)) (("lChapter").toList)) = true ∧
       jsTruthy (getField (getField data (("metadata").toList)) (("title").toList)) = true ∧
       getField (getField data (("metadata").toList)) (("hasStateVariables").toList) ≠ .undefined ∧
       isArrB (getField data (("slides").toList)) = true)) ∧
    (jsTruthy (getField (getField data (("metadata").toList)) (("title").toList)) = false →
      validateContentJSON data = false) := by
  have hes := validateLists_ok_errors data es ws h
  have hA : validateContentJSON data = true ↔ es = [] := by
    by_cases hd : data = .null ∨ data = .undefined
    · have hv : validateContentJSON data = false := by
        simp only [validateContentJSON, if_pos hd]
      have hene : es ≠ [] := by
        rcases hd with hd | hd <;> subst hd <;> rw [hes] <;> decide
      simp [hv, hene]
    · simp only [validateContentJSON, if_neg hd, h]
      simp [List.isEmpty_iff]
  have hB : es = [] ↔
      (jsTruthy (getField data (("metadata").toList)) = true ∧
       jsTruthy (getField (getField data (("metadata").toList)) (("lChapter").toList)) = true ∧
       jsTruthy (getField (getField data (("metadata").toList)) (("title").toList)) = true ∧
       getField (getField data (("metadata").toList)) (("hasStateVariables").toList) ≠ .undefined ∧
       isArrB (getField data (("slides").toList)) = true) := by
    rw [hes]
    cases hmd : jsTruthy (getField data (("metadata").toList))
    · simp [hmd]
    · cases hl : jsTruthy (getField (getField data (("metadata").toList)) (("lChapter").toList)) <;>
      cases htl : jsTruthy (getField (getField data (("metadata").toList)) (("title").toList)) <;>
      by_cases hh :
        getField (getField data (("metadata").toList)) (("hasStateVariables").toList) = .undefined <;>
      cases hs : isArrB (getField data (("slides").toList)) <;>
      simp [hmd, hl, htl, hh, hs]
  refine ⟨hA, hB, ?_⟩
  intro ht
  have hne : es ≠ [] := by
    intro he
    have hc := (hB.mp he).2.2.1
    rw [hc] at ht
    exact Bool.noConfusion ht
  cases hv : validateContentJSON data
  · rfl
  · exact absurd (hA.mp hv) hne

/-- C6 witness: a complete, well-formed document — the validator's body
completes with no errors or warnings and the boolean is pass. -/
theorem validateContentJSON_pass_iff_witness :
    validateContentJSON
      (.obj
        [(("metadata").toList, .obj
          [(("lChapter").toList, .str (("L-01").toList)),
           (("title").toList, .str (("T").toList)),
           (("hasStateVariables").toList, .bool false)]),
         (("slides").toList, .arr [.obj
           [(("number").toList, .num 1),
            (("type").toList, .str (("title").toList)),
            (("content").toList, .obj [])]])]) = true :=
  (validateContentJSON_pass_iff
    (.obj
      [(("metadata").toList, .obj
        [(("lChapter").toList, .str (("L-01").toList)),
         (("title").toList, .str (("T").toList)),
         (("hasStateVariables").toList, .bool false)]),
       (("slides").toList, .arr [.obj
         [(("number").toList, .num 1),
          (("type").toList, .str (("title").toList)),
          (("content").toList, .obj [])]])]) [] [] (by decide)).1.mpr rfl

/-- C6 counterexample: a document with metadata complete, `hasStateVariables`
defined, and `slides` a (one-`null`-entry) array has zero hard errors by the
claim's taxonomy, yet the validator returns fail — the `null` slide entry
makes `slide.number` throw a `TypeError`, which the catch turns into fail,
so pass is not equivalent to "zero hard errors found". -/
theorem validateContentJSON_exception_counterexample :
    validateContentJSON
        (.obj
          [(("metadata").toList, .obj
            [(("lChapter").toList, .str (("L-01").toList)),
             (("title").toList, .str (("T").toList)),
             (("hasStateVariables").toList, .bool false)]),
           (("slides").toList, .arr [.null])]) = false ∧
      (jsTruthy (getField
          (.obj
            [(("metadata").toList, .obj
              [(("lChapter").toList, .str (("L-01").toList)),
               (("title").toList, .str (("T").toList)),
               (("hasStateVariables").toList, .bool false)]),
             (("slides").toList, .arr [.null])]) (("metadata").toList)) = true ∧
       jsTruthy (getField (getField
          (.obj
            [(("metadata").toList, .obj
              [(("lChapter").toList, .str (("L-01").toList)),
               (("title").toList, .str (("T").toList)),
               (("hasStateVariables").toList, .bool false)]),
             (("slides").toList, .arr [.null])]) (("metadata").toList)) (("lChapter").toList)) =
         true ∧
       jsTruthy (getField (getField
          (.obj
            [(("metadata").toList, .obj
              [(("lChapter").toList, .str (("L-01").toList)),
               (("title").toList, .str (("T").toList)),
               (("hasStateVariables").toList, .bool false)]),
             (("slides").toList, .arr [.null])]) (("metadata").toList)) (("title").toList)) =
         true ∧
       getField (getField
          (.obj
            [(("metadata").toList, .obj
              [(("lChapter").toList, .str (("L-01").toList)),
               (("title").toList, .str (("T").toList)),
               (("hasStateVariables").toList, .bool false)]),
             (("slides").toList, .arr [.null])]) (("metadata").toList))
           (("hasStateVariables").toList) ≠ .undefined ∧
       isArrB (getField
          (.obj
            [(("metadata").toList, .obj
              [(("lChapter").toList, .str (("L-01").toList)),
               (("title").toList, .str (("T").toList)),
               (("hasStateVariables").toList, .bool false)]),
             (("slides").toList, .arr [.null])]) (("slides").toList)) = true) := by decide

/-- C9: a `metadata.title` or `metadata.lChapter` key that is present but
equal to the empty string is reported exactly like a missing key — the
truthiness presence checks are emptiness-sensitive — and the validator
returns fail. -/
theorem validateContentJSON_empty_required_fields (data : JSValue)
    (m : List (List Char × JSValue))
    (hm : getField data (("metadata").toList) = .obj m) :
    (lookupF m (("title").toList) = .str [] →
      validateContentJSON data = false ∧
      ∀ es ws, validateLists data = .ok (es, ws) → msgMissingTitle ∈ es) ∧
    (lookupF m (("lChapter").toList) = .str [] →
      validateContentJSON data = false ∧
      ∀ es ws, validateLists data = .ok (es, ws) → msgMissingLChapter ∈ es) := by
  have hno := getField_obj_ne_nullish hm
  have hmdT : jsTruthy (getField data (("metadata").toList)) = true := by rw [hm]; rfl
  constructor
  · intro ht
    have hfield :
        jsTruthy (getField (getField data (("metadata").toList)) (("title").toList)) = false := by
      rw [hm]
      show jsTruthy (lookupF m (("title").toList)) = false
      rw [ht]
      rfl
    have hmem : ∀ es ws, validateLists data = .ok (es, ws) → msgMissingTitle ∈ es := by
      intro es ws hvl
      rw [validateLists_ok_errors data es ws hvl]
      rw [if_neg (show ¬((!jsTruthy (getField data (("metadata").toList))) = true) by
        rw [hmdT]; decide)]
      rw [if_pos (show (!jsTruthy (getField (getField data (("metadata").toList))
          (("title").toList))) = true by rw [hfield]; rfl)]
      simp
    refine ⟨?_, hmem⟩
    cases hvl : validateLists data with
    | error e => simp only [validateContentJSON, if_neg hno, hvl]
    | ok p =>
      obtain ⟨es, ws⟩ := p
      simp only [validateContentJSON, if_neg hno, hvl]
      have hne := List.ne_nil_of_mem (hmem es ws hvl)
      simp [List.isEmpty_iff, hne]
  · intro ht
    have hfield :
        jsTruthy (getField (getField data (("metadata").toList)) (("lChapter").toList)) =
          false := by
      rw [hm]
      show jsTruthy (lookupF m (("lChapter").toList)) = false
      rw [ht]
      rfl
    have hmem : ∀ es ws, validateLists data = .ok (es, ws) → msgMissingLChapter ∈ es := by
      intro es ws hvl
      rw [validateLists_ok_errors data es ws hvl]
      rw [if_neg (show ¬((!jsTruthy (getField data (("metadata").toList))) = true) by
        rw [hmdT]; decide)]
      rw [if_pos (show (!jsTruthy (getField (getField data (("metadata").toList))
          (("lChapter").toList))) = true by rw [hfield]; rfl)]
      simp
    refine ⟨?_, hmem⟩
    cases hvl : validateLists data with
    | error e => simp only [validateContentJSON, if_neg hno, hvl]
    | ok p =>
      obtain ⟨es, ws⟩ := p
      simp only [validateContentJSON, if_neg hno, hvl]
      have hne := List.ne_nil_of_mem (hmem es ws hvl)
      simp [List.isEmpty_iff, hne]

/-- C9 witness: a concrete document with `title` present but empty fails
validation. -/
theorem validateContentJSON_empty_required_fields_witness :
    validateContentJSON
      (.obj
        [(("metadata").toList, .obj
          [(("lChapter").toList, .str (("L-01").toList)),
           (("title").toList, .str []),
           (("hasStateVariables").toList, .bool false)]),
         (("slides").toList, .arr [])]) = false :=
  ((validateContentJSON_empty_required_fields
    (.obj
      [(("metadata").toList, .obj
        [(("lChapter").toList, .str (("L-01").toList)),
         (("title").toList, .str []),
         (("hasStateVariables").toList, .bool false)]),
       (("slides").toList, .arr [])])
    [(("lChapter").toList, .str (("L-01").toList)),
     (("title").toList, .str []),
     (("hasStateVariables").toList, .bool false)] (by decide)).1 (by decide)).1

/-! ## Lemmas: the placeholder scan finds exactly the token occurrences -/

theorem takeWhile_append_stop (p : Char → Bool) (x : Char) (r : List Char) (hx : p x = false) :
    ∀ n, (∀ c ∈ n, p c = true) → (n ++ x :: r).takeWhile p = n := by
  intro n
  induction n with
  | nil => intro _; simp [List.takeWhile_cons, hx]
  | cons c n ih =>
    intro h
    simp only [List.cons_append, List.takeWhile_cons, h c (List.mem_cons_self c n), if_true]
    rw [ih (fun d hd => h d (List.mem_cons_of_mem c hd))]

theorem dropWhile_append_stop (p : Char → Bool) (x : Char) (r : List Char) (hx : p x = false) :
    ∀ n, (∀ c ∈ n, p c = true) → (n ++ x :: r).dropWhile p = x :: r := by
  intro n
  induction n with
  | nil => intro _; simp [List.dropWhile_cons, hx]
  | cons c n ih =>
    intro h
    simp only [List.cons_append, List.dropWhile_cons, h c (List.mem_cons_self c n), if_true]
    exact ih (fun d hd => h d (List.mem_cons_of_mem c hd))

theorem tryMatch_decomp (s n tail : List Char) (h : tryMatch s = some (n, tail)) :
    s = lbr :: lbr :: (n ++ rbr :: rbr :: tail) ∧ n ≠ [] ∧ ∀ c ∈ n, isTok c = true := by
  rw [tryMatch] at h
  split at h
  · split at h
    · rename_i htake hcond
      obtain ⟨hn, htail⟩ := Prod.mk.inj (Option.some.inj h)
      subst hn
      subst htail
      refine ⟨?_, hcond.1, fun c hc => List.mem_takeWhile_imp hc⟩
      conv_lhs => rw [← List.take_append_drop 2 s]
      rw [htake]
      conv_lhs =>
        rw [show s.drop 2 = (s.drop 2).takeWhile isTok ++ (s.drop 2).dropWhile isTok from
          (List.takeWhile_append_dropWhile isTok (s.drop 2)).symm]
      conv_lhs =>
        rw [show (s.drop 2).dropWhile isTok =
            ((s.drop 2).dropWhile isTok).take 2 ++ ((s.drop 2).dropWhile isTok).drop 2 from
          (List.take_append_drop 2 ((s.drop 2).dropWhile isTok)).symm]
      rw [hcond.2]
      simp [lbb, rbb]
    · exact absurd h (by simp)
  · exact absurd h (by simp)

theorem tryMatch_token (n b : List Char) (hne : n ≠ []) (htok : ∀ c ∈ n, isTok c = true) :
    tryMatch (lbr :: lbr :: (n ++ rbr :: rbr :: b)) = some (n, b) := by
  rw [tryMatch]
  have hdrop : (lbr :: lbr :: (n ++ rbr :: rbr :: b)).drop 2 = n ++ rbr :: rbr :: b := rfl
  have hrbr : isTok rbr = false := by decide
  rw [if_pos (show (lbr :: lbr :: (n ++ rbr :: rbr :: b)).take 2 = lbb from rfl)]
  rw [hdrop, takeWhile_append_stop isTok rbr (rbr :: b) hrbr n htok,
    dropWhile_append_stop isTok rbr (rbr :: b) hrbr n htok]
  rw [if_pos ⟨hne, rfl⟩]
  rfl

theorem regexScanFuel_succ (fuel : Nat) (s : List Char) :
    regexScanFuel (fuel + 1) s =
      match tryMatch s with
      | some (n, tail) => n :: regexScanFuel fuel tail
      | none => match s with | [] => [] | _ :: rest => regexScanFuel fuel rest := rfl

theorem tryMatch_lt (s n tail : List Char) (h : tryMatch s = some (n, tail)) :
    tail.length < s.length := by
  obtain ⟨hs, hne, -⟩ := tryMatch_decomp s n tail h
  rw [hs]
  simp [List.length_append]
  omega

theorem regexScanFuel_sound :
    ∀ fuel s n, n ∈ regexScanFuel fuel s →
      (∃ a b, s = a ++ lbr :: lbr :: (n ++ rbr :: rbr :: b)) ∧ n ≠ [] ∧
        ∀ c ∈ n, isTok c = true := by
  intro fuel
  induction fuel with
  | zero => intro s n hn; simp [regexScanFuel] at hn
  | succ fuel ih =>
    intro s n hn
    rw [regexScanFuel_succ] at hn
    cases hm : tryMatch s with
    | some p =>
      obtain ⟨m, tail⟩ := p
      rw [hm] at hn
      obtain ⟨hs, hmne, hmtok⟩ := tryMatch_decomp s m tail hm
      rcases List.mem_cons.mp hn with rfl | hn'
      · exact ⟨⟨[], tail, hs⟩, hmne, hmtok⟩
      · obtain ⟨⟨a', b', htail⟩, hne, htok⟩ := ih tail n hn'
        refine ⟨⟨lbr :: lbr :: (m ++ rbr :: rbr :: a'), b', ?_⟩, hne, htok⟩
        rw [hs, htail]
        simp
    | none =>
      rw [hm] at hn
      cases s with
      | nil => simp at hn
      | cons c rest =>
        obtain ⟨⟨a', b', hrest⟩, hne, htok⟩ := ih rest n hn
        exact ⟨⟨c :: a', b', by rw [hrest]; rfl⟩, hne, htok⟩

theorem regexScanFuel_complete :
    ∀ fuel s a n b, s.length ≤ fuel → s = a ++ lbr :: lbr :: (n ++ rbr :: rbr :: b) →
      n ≠ [] → (∀ c ∈ n, isTok c = true) → n ∈ regexScanFuel fuel s := by
  intro fuel
  induction fuel with
  | zero =>
    intro s a n b hlen hs _ _
    rw [hs] at hlen
    simp [List.length_append] at hlen
  | succ fuel ih =>
    intro s a n b hlen hs hne htok
    rw [regexScanFuel_succ]
    cases hm : tryMatch s with
    | none =>
      cases a with
      | nil =>
        rw [hs] at hm
        simp only [List.nil_append] at hm
        rw [tryMatch_token n b hne htok] at hm
        exact absurd hm (by simp)
      | cons c a' =>
        have hrest : s = c :: (a' ++ lbr :: lbr :: (n ++ rbr :: rbr :: b)) := by rw [hs]; rfl
        cases s with
        | nil => simp at hrest
        | cons c0 rest =>
          obtain ⟨hc0, hrest'⟩ := List.cons.inj hrest
          exact ih rest a' n b (by simpa using Nat.le_of_succ_le_succ (hrest' ▸ hlen))
            hrest' hne htok
    | some p =>
      obtain ⟨m, tail⟩ := p
      obtain ⟨hsm, hmne, hmtok⟩ := tryMatch_decomp s m tail hm
      have htail_len : tail.length ≤ fuel :=
        Nat.le_of_lt_succ (Nat.lt_of_lt_of_le (tryMatch_lt s m tail hm) hlen)
      cases a with
      | nil =>
        rw [hs] at hm
        simp only [List.nil_append] at hm
        rw [tryMatch_token n b hne htok] at hm
        obtain ⟨hmn, -⟩ := Prod.mk.inj (Option.some.inj hm)
        rw [hmn]
        exact List.mem_cons_self _ _
      | cons x a1 =>
        cases a1 with
        | nil =>
          exfalso
          rw [hs] at hsm
          obtain ⟨hx, h1⟩ := List.cons.inj hsm
          obtain ⟨h2, h3⟩ := List.cons.inj h1
          cases m with
          | nil => exact hmne rfl
          | cons c0 m' =>
            obtain ⟨hc0, -⟩ := List.cons.inj h3
            have := hmtok c0 (List.mem_cons_self c0 m')
            rw [← hc0] at this
            simp [isTok, lbr] at this
        | cons y a2 =>
          rw [hs] at hsm
          obtain ⟨hx, h1⟩ := List.cons.inj hsm
          obtain ⟨hy, h2⟩ := List.cons.inj h1
          have h2a : a2 ++ lbr :: lbr :: (n ++ rbr :: rbr :: b) =
              m ++ rbr :: rbr :: tail := h2
          have h2' : a2 ++ lbr :: lbr :: (n ++ rbr :: rbr :: b) =
              (m ++ [rbr, rbr]) ++ tail := by
            rw [h2a]
            simp
          rcases List.append_eq_append_iff.mp h2' with ⟨w, hw1, hw2⟩ | ⟨c', hc1, hc2⟩
          · cases w with
            | nil =>
              simp only [List.nil_append] at hw2
              exact List.mem_cons_of_mem m
                (ih tail [] n b htail_len (by simpa using hw2.symm) hne htok)
            | cons wc w' =>
              exfalso
              obtain ⟨hwc, -⟩ := List.cons.inj hw2
              have hmem : wc ∈ m ++ [rbr, rbr] := by
                rw [hw1]
                exact List.mem_append_right a2 (List.mem_cons_self wc w')
              rw [← hwc] at hmem
              rcases List.mem_append.mp hmem with hin | hin
              · have := hmtok lbr hin
                simp [isTok, lbr] at this
              · simp [lbr, rbr] at hin
          · exact List.mem_cons_of_mem m (ih tail c' n b htail_len hc2 hne htok)

theorem regexScan_mem_iff (s n : List Char) :
    n ∈ regexScan s ↔
      (∃ a b, s = a ++ lbr :: lbr :: (n ++ rbr :: rbr :: b)) ∧ n ≠ [] ∧
        ∀ c ∈ n, isTok c = true := by
  constructor
  · exact regexScanFuel_sound s.length s n
  · rintro ⟨⟨a, b, hs⟩, hne, htok⟩
    exact regexScanFuel_complete s.length s a n b (Nat.le_refl _) hs hne htok

theorem mem_dedupAux : ∀ (l seen : List (List Char)) (n : List Char),
    n ∈ dedupAux seen l ↔ n ∈ l ∧ n ∉ seen := by
  intro l
  induction l with
  | nil => intro seen n; simp [dedupAux]
  | cons x rest ih =>
    intro seen n
    rw [dedupAux]
    split
    · rename_i hx
      rw [ih seen n]
      constructor
      · exact fun ⟨h1, h2⟩ => ⟨List.mem_cons_of_mem x h1, h2⟩
      · rintro ⟨h1, h2⟩
        rcases List.mem_cons.mp h1 with rfl | h1'
        · exact absurd hx h2
        · exact ⟨h1', h2⟩
    · rename_i hx
      constructor
      · intro hmem
        rcases List.mem_cons.mp hmem with rfl | h1
        · exact ⟨List.mem_cons_self n rest, hx⟩
        · obtain ⟨h2, h3⟩ := (ih (x :: seen) n).mp h1
          exact ⟨List.mem_cons_of_mem x h2,
            fun hseen => h3 (List.mem_cons_of_mem x hseen)⟩
      · rintro ⟨h1, h2⟩
        rcases List.mem_cons.mp h1 with rfl | h1'
        · exact List.mem_cons_self n _
        · by_cases hxe : n = x
          · subst hxe; exact List.mem_cons_self n _
          · exact List.mem_cons_of_mem x
              ((ih (x :: seen) n).mpr ⟨h1', fun hs => by
                rcases List.mem_cons.mp hs with h | h
                · exact hxe h
                · exact h2 h⟩)

theorem nodup_dedupAux : ∀ (l seen : List (List Char)), (dedupAux seen l).Nodup := by
  intro l
  induction l with
  | nil => intro seen; simp [dedupAux]
  | cons x rest ih =>
    intro seen
    rw [dedupAux]
    split
    · exact ih seen
    · refine List.Nodup.cons ?_ (ih (x :: seen))
      intro hmem
      exact ((mem_dedupAux rest (x :: seen) x).mp hmem).2 (List.mem_cons_self x seen)

theorem mem_dedupKeepFirst (l : List (List Char)) (n : List Char) :
    n ∈ dedupKeepFirst l ↔ n ∈ l := by
  rw [dedupKeepFirst, mem_dedupAux]
  simp

theorem mem_foldl_addNew (ms : List (List Char)) :
    ∀ (acc : List (List Char)) (n : List Char),
      n ∈ ms.foldl (fun acc m => if m ∈ acc then acc else acc ++ [m]) acc ↔
        n ∈ acc ∨ n ∈ ms := by
  induction ms with
  | nil => intro acc n; simp
  | cons m rest ih =>
    intro acc n
    rw [List.foldl_cons, ih]
    by_cases hm : m ∈ acc
    · rw [if_pos hm]
      constructor
      · rintro (h | h)
        · exact Or.inl h
        · exact Or.inr (List.mem_cons_of_mem m h)
      · rintro (h | h)
        · exact Or.inl h
        · rcases List.mem_cons.mp h with rfl | h'
          · exact Or.inl hm
          · exact Or.inr h'
    · rw [if_neg hm]
      simp only [List.mem_append, List.mem_singleton, List.mem_cons]
      tauto

theorem lookupF_setL_self (fs : List (List Char × JSValue)) (k : List Char) (v : JSValue) :
    lookupF (setL fs k v) k = v := by
  induction fs with
  | nil => simp [setL, lookupF]
  | cons kv rest ih =>
    obtain ⟨k0, v0⟩ := kv
    rw [setL]
    by_cases hk : k0 = k
    · rw [if_pos hk, lookupF, if_pos hk]
    · rw [if_neg hk, lookupF, if_neg hk]
      exact ih

theorem lookupF_setL_other (fs : List (List Char × JSValue)) (k k' : List Char) (v : JSValue)
    (h : k ≠ k') : lookupF (setL fs k v) k' = lookupF fs k' := by
  induction fs with
  | nil => simp [setL, lookupF, if_neg h]
  | cons kv rest ih =>
    obtain ⟨k0, v0⟩ := kv
    rw [setL]
    by_cases hk : k0 = k
    · rw [if_pos hk, lookupF, lookupF, if_neg (hk ▸ h), if_neg (hk ▸ h)]
    · rw [if_neg hk, lookupF, lookupF]
      by_cases hk' : k0 = k'
      · rw [if_pos hk', if_pos hk']
      · rw [if_neg hk', if_neg hk']
        exact ih

theorem sub_of_braceTok_sub {n s : List Char} (h : braceTok n <:+: s) : n <:+: s :=
  List.IsInfix.trans ⟨lbb, rbb, rfl⟩ h

/-- C7: after conversion, `metadata.stateVariablesUsed` holds exactly the
detected names — the duplicate-free union of the known state-variable names
occurring literally in the serialised document with all
`\x7b\x7bUPPER_SNAKE_CASE\x7d\x7d` placeholder names occurring in it — and
`metadata.hasStateVariables` is true exactly when that set is non-empty. -/
theorem converter_records_state_variables (doc : JSValue)
    (fs m : List (List Char × JSValue)) (hdoc : doc = .obj fs)
    (hm : lookupF fs (("metadata").toList) = .obj m) :
    (getField (getField (applyStateVarDetection doc) (("metadata").toList))
        (("stateVariablesUsed").toList) =
      .arr ((detectStateVariables doc).map .str)) ∧
    (getField (getField (applyStateVarDetection doc) (("metadata").toList))
        (("hasStateVariables").toList) =
      .bool (decide (0 < (detectStateVariables doc).length))) ∧
    ((decide (0 < (detectStateVariables doc).length) = true) ↔
      detectStateVariables doc ≠ []) ∧
    (detectStateVariables doc).Nodup ∧
    (∀ n, n ∈ detectStateVariables doc ↔
      ((n ∈ STATE_VARIABLES ∧ n <:+: jsonStringify doc) ∨
       ((∃ a b, jsonStringify doc = a ++ braceTok n ++ b) ∧ n ≠ [] ∧
         ∀ c ∈ n, isTok c = true))) := by
  subst hdoc
  have hout : applyStateVarDetection (.obj fs) =
      .obj (setL (setL fs (("metadata").toList)
        (.obj (setL m (("hasStateVariables").toList)
          (.bool (decide (0 < (detectStateVariables (.obj fs)).length))))))
        (("metadata").toList)
        (.obj (setL (setL m (("hasStateVariables").toList)
          (.bool (decide (0 < (detectStateVariables (.obj fs)).length))))
          (("stateVariablesUsed").toList)
          (.arr ((detectStateVariables (.obj fs)).map .str))))) := by
    simp only [applyStateVarDetection, setField2, hm, lookupF_setL_self]
  refine ⟨?_, ?_, ?_, nodup_dedupAux _ _, ?_⟩
  · rw [hout]
    simp only [getField]
    rw [lookupF_setL_self]
    simp only [getField]
    rw [lookupF_setL_self]
  · rw [hout]
    simp only [getField]
    rw [lookupF_setL_self]
    simp only [getField]
    rw [lookupF_setL_other _ _ _ _ (by decide), lookupF_setL_self]
  · constructor
    · intro h hnil
      rw [hnil] at h
      exact absurd h (by decide)
    · intro h
      rcases hd : detectStateVariables (.obj fs) with _ | ⟨x, xs⟩
      · exact absurd hd h
      · simp
  · intro n
    rw [detectStateVariables]
    rw [mem_dedupKeepFirst, mem_foldl_addNew, List.mem_filter]
    rw [regexScan_mem_iff]
    constructor
    · rintro (⟨hsv, hocc⟩ | ⟨⟨a, b, hs⟩, hne, htok⟩)
      · rcases Bool.or_eq_true_iff.mp hocc with hb | hb
        · exact Or.inl ⟨hsv, sub_of_braceTok_sub (of_decide_eq_true hb)⟩
        · exact Or.inl ⟨hsv, of_decide_eq_true hb⟩
      · refine Or.inr ⟨⟨a, b, ?_⟩, hne, htok⟩
        rw [hs]
        simp [braceTok, lbb, rbb]
    · rintro (⟨hsv, hocc⟩ | ⟨⟨a, b, hs⟩, hne, htok⟩)
      · exact Or.inl ⟨hsv, Bool.or_eq_true_iff.mpr (Or.inr (decide_eq_true hocc))⟩
      · refine Or.inr ⟨⟨a, b, ?_⟩, hne, htok⟩
        rw [hs]
        simp [braceTok, lbb, rbb]

/-- C7 witness: a concrete assembled document whose only state variable is
`\x7b\x7bMIN_WAGE\x7d\x7d` gets `stateVariablesUsed = ["MIN_WAGE"]` and
`hasStateVariables = true` recorded in its metadata. -/
theorem converter_records_state_variables_witness :
    getField (getField (applyStateVarDetection
        (.obj
          [(("metadata").toList, .obj
            [(("lChapter").toList, .str (("L-02").toList)),
             (("hasStateVariables").toList, .bool false),
             (("stateVariablesUsed").toList, .arr [])]),
           (("slides").toList, .arr [.obj
             [(("content").toList,
               .str (("uses \x7b\x7bMIN_WAGE\x7d\x7d").toList))]])]))
        (("metadata").toList)) (("stateVariablesUsed").toList) =
      .arr [.str (("MIN_WAGE").toList)] := by
  rw [(converter_records_state_variables
      (.obj
        [(("metadata").toList, .obj
          [(("lChapter").toList, .str (("L-02").toList)),
           (("hasStateVariables").toList, .bool false),
           (("stateVariablesUsed").toList, .arr [])]),
         (("slides").toList, .arr [.obj
           [(("content").toList,
             .str (("uses \x7b\x7bMIN_WAGE\x7d\x7d").toList))]])])
      [(("metadata").toList, .obj
        [(("lChapter").toList, .str (("L-02").toList)),
         (("hasStateVariables").toList, .bool false),
         (("stateVariablesUsed").toList, .arr [])]),
       (("slides").toList, .arr [.obj
         [(("content").toList,
           .str (("uses \x7b\x7bMIN_WAGE\x7d\x7d").toList))]])]
      [(("lChapter").toList, .str (("L-02").toList)),
       (("hasStateVariables").toList, .bool false),
       (("stateVariablesUsed").toList, .arr [])]
      rfl (by decide)).1]
  decide
